import Mathlib

/-
  Verification of the resumable crawl orchestrator of the Naver blog
  extractor repository.

  The Python sources are shallowly embedded below:
  - Python dicts used as string-keyed maps become association lists
    (`List (String × String)`), with `dict.get` as `find?`-based lookup;
    insertion order is preserved, matching CPython dict semantics.
  - Progress records and database rows become Lean structures mirroring the
    dict keys / table columns (creation timestamps, which no verified claim
    observes, are omitted; queries return rows in table order since the
    ORDER BY keys are those timestamps).
  - Optional / nullable Python values become `Option`.
  - Python exceptions relevant to `load_progress` become an explicit
    `Except` result over an exception type.
-/

namespace NaverBlog

/-- Stage names in fixed order: `CrawlStep.all_steps` (src/config.py 57-72). -/
def allSteps : List String :=
  ["blog_info", "post_list", "post_content", "reactions", "comments"]

/-- Lookup in a Python dict modelled as an association list (`d.get k`). -/
def stepsGet (steps : List (String × String)) (k : String) : Option String :=
  (steps.find? (fun p => p.1 == k)).map (fun p => p.2)

/-- Lookup with default: `d.get k "pending"` as used by
`get_next_incomplete_step` (src/utils/helpers.py 201). -/
def stepStatusD (steps : List (String × String)) (k : String) : String :=
  (stepsGet steps k).getD "pending"

/-- One entry of the progress file's `blogs` list, as created by
`update_blog_progress` (src/utils/helpers.py 152-159). -/
structure BlogProgress where
  blog_id : String
  blog_name : Option String
  status : String
  total_posts : Nat
  current_post_index : Nat
  steps_completed : List (String × String)
deriving DecidableEq

/-- The whole progress file document (src/utils/helpers.py 95). -/
structure ProgressState where
  last_updated : Option String
  blogs : List BlogProgress
deriving DecidableEq

/-- `get_next_incomplete_step` (src/utils/helpers.py 190-205): first step
whose status is in_progress, else the first step whose status, defaulting
to pending when absent, is pending, else none. -/
def get_next_incomplete_step (bp : BlogProgress) : Option String :=
  match allSteps.find?
      (fun s => stepsGet bp.steps_completed s == some "in_progress") with
  | some step => some step
  | none =>
      allSteps.find? (fun s => stepStatusD bp.steps_completed s == "pending")

/-- Position of a stage in the fixed stage order. -/
def stageIdx (s : String) : Nat :=
  allSteps.findIdx (fun x => x == s)

/-- The Python membership test `steps.get(step) in ["pending", "in_progress"]`
(src/utils/helpers.py 125): a missing key gives None, which is not in the
list, so it tests false. -/
def statusIncomplete (o : Option String) : Bool :=
  match o with
  | some st => st == "pending" || st == "in_progress"
  | none => false

/-- `has_incomplete_work` (src/utils/helpers.py 116-128). -/
def has_incomplete_work (pd : ProgressState) : Bool :=
  pd.blogs.any (fun blog =>
    blog.status == "in_progress" ||
    allSteps.any (fun step => statusIncomplete (stepsGet blog.steps_completed step)))

/-- The Python exceptions relevant to `load_progress`: the two caught by its
except clause, and the decoding error that is not caught. -/
inductive PyExc where
  | jsonDecodeError
  | ioError
  | unicodeDecodeError
deriving DecidableEq

/-- A JSON value as produced by `json.load` (numbers restricted to
integers; no verified claim involves a float). -/
inductive JsonV where
  | null
  | jbool (b : Bool)
  | jnum (n : Int)
  | jstr (s : String)
  | jarr (l : List JsonV)
  | jobj (l : List (String × JsonV))

/-- What the filesystem yields for the progress file: missing, present but
unreadable (opening raises IOError), or a concrete byte content. -/
inductive FileOutcome where
  | absent
  | unreadable
  | bytes (bs : List Nat)

/-- The default empty progress state built at src/utils/helpers.py 95 and
101. -/
def defaultProgress : JsonV :=
  .jobj [("last_updated", .null), ("blogs", .jarr [])]

/-- Strict UTF-8 decoding of a byte sequence into code points, as performed
by reading the file opened with encoding utf-8: rejects lone continuation
bytes, overlong forms, surrogates and out-of-range lead bytes, exactly the
cases where Python raises UnicodeDecodeError. -/
def utf8Decode : List Nat → Option (List Nat)
  | [] => some []
  | b1 :: rest =>
    if b1 < 128 then
      (utf8Decode rest).map (fun cs => b1 :: cs)
    else if 194 ≤ b1 ∧ b1 ≤ 223 then
      match rest with
      | b2 :: rest2 =>
        if 128 ≤ b2 ∧ b2 ≤ 191 then
          (utf8Decode rest2).map (fun cs => ((b1 - 192) * 64 + (b2 - 128)) :: cs)
        else none
      | [] => none
    else if 224 ≤ b1 ∧ b1 ≤ 239 then
      match rest with
      | b2 :: b3 :: rest3 =>
        if (if b1 = 224 then 160 ≤ b2 ∧ b2 ≤ 191
            else if b1 = 237 then 128 ≤ b2 ∧ b2 ≤ 159
            else 128 ≤ b2 ∧ b2 ≤ 191) ∧ 128 ≤ b3 ∧ b3 ≤ 191 then
          (utf8Decode rest3).map (fun cs =>
            ((b1 - 224) * 4096 + (b2 - 128) * 64 + (b3 - 128)) :: cs)
        else none
      | _ => none
    else if 240 ≤ b1 ∧ b1 ≤ 244 then
      match rest with
      | b2 :: b3 :: b4 :: rest4 =>
        if (if b1 = 240 then 144 ≤ b2 ∧ b2 ≤ 191
            else if b1 = 244 then 128 ≤ b2 ∧ b2 ≤ 143
            else 128 ≤ b2 ∧ b2 ≤ 191) ∧ 128 ≤ b3 ∧ b3 ≤ 191 ∧
            128 ≤ b4 ∧ b4 ≤ 191 then
          (utf8Decode rest4).map (fun cs =>
            ((b1 - 240) * 262144 + (b2 - 128) * 4096 +
              (b3 - 128) * 64 + (b4 - 128)) :: cs)
        else none
      | _ => none
    else none

/-- `load_progress` (src/utils/helpers.py 92-101), parameterized by the
behaviour of the external `json.load`. The try block covers decoding the
bytes and parsing; the except clause catches exactly JSONDecodeError and
IOError, returning the default state, and re-raises anything else. -/
def load_progress (jsonLoad : List Nat → Except PyExc JsonV) :
    FileOutcome → Except PyExc JsonV
  | .absent => .ok defaultProgress
  | .unreadable => .ok defaultProgress
  | .bytes bs =>
    let attempt : Except PyExc JsonV :=
      match utf8Decode bs with
      | none => .error .unicodeDecodeError
      | some text => jsonLoad text
    match attempt with
    | .error e =>
      if e = .jsonDecodeError ∨ e = .ioError then .ok defaultProgress
      else .error e
    | .ok v => .ok v

/-- `get_blog_progress` (src/utils/helpers.py 131-137): first record whose
blog_id matches. -/
def get_blog_progress (pd : ProgressState) (blog_id : String) :
    Option BlogProgress :=
  pd.blogs.find? (fun b => b.blog_id == blog_id)

/-- Python `x or default` on an optional string: None and the empty string
are both falsy. -/
def pyOrD (o : Option String) (d : String) : String :=
  match o with
  | some s => if s == "" then d else s
  | none => d

/-- Assignment `d[k] = v` on a Python dict modelled as an association list:
replaces the value of an existing key in place, else appends the key. -/
def dictSet (l : List (String × String)) (k v : String) :
    List (String × String) :=
  match l with
  | [] => [(k, v)]
  | (k1, v1) :: rest =>
    if k1 == k then (k, v) :: rest else (k1, v1) :: dictSet rest k v

/-- In-place mutation of the first list element with the given blog_id. -/
def updateFirst (l : List BlogProgress) (blog_id : String)
    (f : BlogProgress → BlogProgress) : List BlogProgress :=
  match l with
  | [] => []
  | b :: rest =>
    if b.blog_id == blog_id then f b :: rest
    else b :: updateFirst rest blog_id f

/-- The merge branch of `update_blog_progress` (src/utils/helpers.py
163-175): each field is written only when its argument is truthy
(for blog_name, status, step and step_status) or non-None (for the two
numeric fields); the stage map is written only when both step and
step_status are truthy. -/
def applyUpdates (b : BlogProgress) (blog_name status : Option String)
    (total_posts current_post_index : Option Nat)
    (step step_status : Option String) : BlogProgress :=
  let b1 := match blog_name with
    | some n => if n == "" then b else { b with blog_name := some n }
    | none => b
  let b2 := match status with
    | some st => if st == "" then b1 else { b1 with status := st }
    | none => b1
  let b3 := match total_posts with
    | some t => { b2 with total_posts := t }
    | none => b2
  let b4 := match current_post_index with
    | some c => { b3 with current_post_index := c }
    | none => b3
  match step, step_status with
  | some s, some ss =>
    if s == "" || ss == "" then b4
    else { b4 with steps_completed := dictSet b4.steps_completed s ss }
  | _, _ => b4

/-- `update_blog_progress` (src/utils/helpers.py 140-177): creates a record
with the default stage map when the blog is absent, else merges the given
fields into the first matching record. -/
def update_blog_progress (pd : ProgressState) (blog_id : String)
    (blog_name status : Option String)
    (total_posts current_post_index : Option Nat)
    (step step_status : Option String) : ProgressState :=
  let fresh : BlogProgress :=
    { blog_id := blog_id,
      blog_name := blog_name,
      status := pyOrD status "pending",
      total_posts := total_posts.getD 0,
      current_post_index := current_post_index.getD 0,
      steps_completed := allSteps.map (fun s => (s, "pending")) }
  let merge : BlogProgress → BlogProgress := fun b =>
    applyUpdates b blog_name status total_posts current_post_index step step_status
  match get_blog_progress pd blog_id with
  | none => { pd with blogs := pd.blogs ++ [fresh] }
  | some _ => { pd with blogs := updateFirst pd.blogs blog_id merge }

/-- The stage scheduling of `NaverBlogCrawlerApp._crawl_blogs`
(src/main.py 469-516) for one blog, restricted to runs where the stop flag
stays unset and no stage raises: the loop walks the five stages in fixed
order and, exactly when the resume argument is true, skips a stage whose
persisted status in the record's stage map is completed; every other stage
is executed. The skip test for a stage reads that stage's entry before the
loop body touches it, so the executed stages are a filter of the fixed
order against the record as it stood at loop entry. -/
def stepsExecuted (resume : Bool) (bp : BlogProgress) : List String :=
  allSteps.filter
    (fun step =>
      !(resume && (stepsGet bp.steps_completed step == some "completed")))

/-- A row of the blogs table (src/database/models.py 6-16); created_at,
which no verified claim observes, is omitted and rows are kept in insertion
order. -/
structure Blog where
  id : String
  blog_name : String
  author_name : Option String
  url : String
  post_count : Nat
  status : String
deriving DecidableEq

/-- A row of the posts table (src/database/models.py 18-33); created_at is
omitted as above. -/
structure Post where
  id : String
  blog_id : String
  title : Option String
  content : Option String
  category : Option String
  post_url : Option String
  post_date : Option String
  comment_count : Int
  sympathy_count : Int
  crawl_status : String
deriving DecidableEq

/-- A row of the reactions table (src/database/models.py 35-44); the
autoincrement surrogate id is omitted, the UNIQUE(post_id, reaction_type)
constraint is what the claims observe. -/
structure Reaction where
  post_id : String
  reaction_type : String
  count : Int
deriving DecidableEq

/-- A row of the comments table (src/database/models.py 46-59). -/
structure Comment where
  id : String
  post_id : String
  parent_id : Option String
  author : Option String
  content : Option String
  like_count : Int
  written_at : Option String
  is_reply : Int
deriving DecidableEq

/-- A row of the progress table (src/database/models.py 61-71); the
surrogate id and last_updated timestamp are omitted. -/
structure DbProgress where
  blog_id : String
  current_post_index : Nat
  total_posts : Nat
  current_step : String
deriving DecidableEq

/-- The SQLite database handled by DatabaseManager, one list per table,
rows in insertion order. -/
structure Db where
  blogs : List Blog
  posts : List Post
  reactions : List Reaction
  comments : List Comment
  progress : List DbProgress
deriving DecidableEq

/-- `DatabaseManager.get_posts_by_status` (src/database/manager.py 166-179):
the status condition is added only when the argument is truthy (None and
the empty string both skip it). -/
def get_posts_by_status (db : Db) (blog_id : String)
    (crawl_status : Option String) : List Post :=
  match crawl_status with
  | some st =>
    if st == "" then db.posts.filter (fun p => p.blog_id == blog_id)
    else db.posts.filter
      (fun p => p.blog_id == blog_id && p.crawl_status == st)
  | none => db.posts.filter (fun p => p.blog_id == blog_id)

/-- The per-post loop of `_process_post_content` (src/main.py 617-657) with
the stop flag unset: yields, in order, each processed post id paired with
the current_post_index value persisted by save_progress immediately after
that post (enumerate starts at start_index, and the write after the post at
position i is i + 1). -/
def processLoop (todo : List Post) (i : Nat) : List (String × Nat) :=
  match todo with
  | [] => []
  | p :: rest => (p.id, i + 1) :: processLoop rest (i + 1)

/-- `_process_post_content` (src/main.py 599-659): fetches the posts of the
blog whose crawl_status is pending and iterates the slice
posts[start_index:], where start_index is the current_post_index persisted
in the blog's progress record. -/
def process_post_content (db : Db) (blog_id : String) (bp : BlogProgress) :
    List (String × Nat) :=
  let posts := get_posts_by_status db blog_id (some "pending")
  let start_index := bp.current_post_index
  processLoop (posts.drop start_index) start_index

/-- `DatabaseManager.get_blog` (src/database/manager.py 40-45). -/
def get_blog (db : Db) (blog_id : String) : Option Blog :=
  db.blogs.find? (fun b => b.id == blog_id)

/-- `DatabaseManager.get_blog_posts` (src/database/manager.py 157-164);
ORDER BY created_at is the insertion order kept by the list. -/
def get_blog_posts (db : Db) (blog_id : String) : List Post :=
  db.posts.filter (fun p => p.blog_id == blog_id)

/-- `DatabaseManager.get_reactions` (src/database/manager.py 272-278). -/
def get_reactions (db : Db) (post_id : String) : List Reaction :=
  db.reactions.filter (fun r => r.post_id == post_id)

/-- `DatabaseManager.get_comments` (src/database/manager.py 326-340) with
include_replies true; ORDER BY written_at only permutes the rows and no
verified claim observes the order, so the filtered rows are returned in
table order. -/
def get_comments (db : Db) (post_id : String) : List Comment :=
  db.comments.filter (fun c => c.post_id == post_id)

/-- `DatabaseManager.get_progress` (src/database/manager.py 367-374);
blog_id is UNIQUE, the first matching row is the row. -/
def get_progress (db : Db) (blog_id : String) : Option DbProgress :=
  db.progress.find? (fun pr => pr.blog_id == blog_id)

/-- `DatabaseManager.delete_blog` (src/database/manager.py 92-115): collects
the post ids of the blog, deletes the comments then the reactions of each
such post, then the posts of the blog, then its progress rows, then the
blog row, and returns True unconditionally. -/
def delete_blog (db : Db) (blog_id : String) : Db × Bool :=
  let post_ids := (db.posts.filter (fun p => p.blog_id == blog_id)).map Post.id
  ({ blogs := db.blogs.filter (fun b => !(b.id == blog_id)),
     posts := db.posts.filter (fun p => !(p.blog_id == blog_id)),
     reactions := db.reactions.filter (fun r => !(post_ids.contains r.post_id)),
     comments := db.comments.filter (fun c => !(post_ids.contains c.post_id)),
     progress := db.progress.filter (fun pr => !(pr.blog_id == blog_id)) },
   true)

/-- `DatabaseManager.add_reaction` (src/database/manager.py 241-253):
INSERT OR REPLACE under UNIQUE(post_id, reaction_type) removes any
conflicting row and appends the new one; returns True. -/
def add_reaction (db : Db) (post_id reaction_type : String) (count : Int) :
    Db × Bool :=
  let kept := db.reactions.filter
    (fun r => !(r.post_id == post_id && r.reaction_type == reaction_type))
  let row : Reaction :=
    { post_id := post_id, reaction_type := reaction_type, count := count }
  ({ db with reactions := kept ++ [row] }, true)

/-- One element of the list given to `add_posts_batch`: a dict with keys
id, blog_id and optional title and post_url (src/database/manager.py
139-143). -/
structure PostIn where
  id : String
  blog_id : String
  title : Option String
  post_url : Option String
deriving DecidableEq

/-- The posts-table row written by the INSERT of `add_post` and
`add_posts_batch`: unspecified columns take the schema defaults. -/
def postRow (p : PostIn) : Post :=
  { id := p.id, blog_id := p.blog_id, title := p.title,
    content := none, category := none, post_url := p.post_url,
    post_date := none, comment_count := 0, sympathy_count := 0,
    crawl_status := "pending" }

/-- `DatabaseManager.add_post` (src/database/manager.py 119-131): plain
INSERT; a duplicate primary key raises IntegrityError, which is caught and
reported as False with no row written. -/
def add_post (db : Db) (post_id blog_id : String)
    (title post_url : Option String) : Db × Bool :=
  if db.posts.any (fun p => p.id == post_id) then (db, false)
  else
    ({ db with posts := db.posts ++ [postRow ⟨post_id, blog_id, title, post_url⟩] },
     true)

/-- The loop of `DatabaseManager.add_posts_batch` (src/database/manager.py
133-148): inserts each row, counting it only when the INSERT does not hit
the duplicate-key IntegrityError. -/
def add_posts_batch_aux (db : Db) (added : Nat) :
    List PostIn → Db × Nat
  | [] => (db, added)
  | p :: rest =>
    if db.posts.any (fun q => q.id == p.id) then
      add_posts_batch_aux db added rest
    else
      add_posts_batch_aux { db with posts := db.posts ++ [postRow p] }
        (added + 1) rest

/-- `DatabaseManager.add_posts_batch` (src/database/manager.py 133-148). -/
def add_posts_batch (db : Db) (posts : List PostIn) : Db × Nat :=
  add_posts_batch_aux db 0 posts

/-- The comments-table row written by the INSERT of `add_comment`. -/
def commentRow (comment_id post_id author content : String)
    (like_count : Int) (written_at parent_id : Option String)
    (is_reply : Int) : Comment :=
  { id := comment_id, post_id := post_id, parent_id := parent_id,
    author := some author, content := some content,
    like_count := like_count, written_at := written_at,
    is_reply := is_reply }

/-- `DatabaseManager.add_comment` (src/database/manager.py 282-298):
INSERT OR IGNORE leaves an existing id untouched; returns True either
way. -/
def add_comment (db : Db) (comment_id post_id author content : String)
    (like_count : Int) (written_at parent_id : Option String)
    (is_reply : Int) : Db × Bool :=
  if db.comments.any (fun c => c.id == comment_id) then (db, true)
  else
    ({ db with
        comments := db.comments ++
          [commentRow comment_id post_id author content like_count written_at parent_id is_reply] },
     true)

/-- One element of the list given to `add_comments_batch`
(src/database/manager.py 310-319). -/
structure CommentIn where
  id : String
  post_id : String
  parent_id : Option String
  author : Option String
  content : Option String
  like_count : Int
  written_at : Option String
  is_reply : Int
deriving DecidableEq

/-- The comments-table row written for one batch element
(src/database/manager.py 310-319). -/
def commentRowOf (c : CommentIn) : Comment :=
  { id := c.id, post_id := c.post_id, parent_id := c.parent_id,
    author := c.author, content := c.content,
    like_count := c.like_count, written_at := c.written_at,
    is_reply := c.is_reply }

/-- The loop of `DatabaseManager.add_comments_batch`
(src/database/manager.py 300-324): INSERT OR IGNORE never raises the
IntegrityError the loop guards against, so the counter is incremented for
every element, inserted or ignored. -/
def add_comments_batch_aux (db : Db) (added : Nat) :
    List CommentIn → Db × Nat
  | [] => (db, added)
  | c :: rest =>
    if db.comments.any (fun q => q.id == c.id) then
      add_comments_batch_aux db (added + 1) rest
    else
      add_comments_batch_aux
        { db with comments := db.comments ++ [commentRowOf c] }
        (added + 1) rest

/-- `DatabaseManager.add_comments_batch` (src/database/manager.py 300-324). -/
def add_comments_batch (db : Db) (comments : List CommentIn) : Db × Nat :=
  add_comments_batch_aux db 0 comments

/-- Concrete fixture: a progress record with stage statuses
[completed, completed, in_progress, pending, pending] in fixed order. -/
def sampleBp : BlogProgress :=
  { blog_id := "b1", blog_name := some "Blog1", status := "in_progress",
    total_posts := 3, current_post_index := 1,
    steps_completed :=
      [("blog_info", "completed"), ("post_list", "completed"),
       ("post_content", "in_progress"), ("reactions", "pending"),
       ("comments", "pending")] }

/-- Concrete fixture: a post row with the given id, blog and crawl
status. -/
def samplePost (pid bid st : String) : Post :=
  { id := pid, blog_id := bid, title := none, content := none,
    category := none, post_url := none, post_date := none,
    comment_count := 0, sympathy_count := 0, crawl_status := st }

/-- Concrete fixture: a database with two blogs, their posts, reactions,
comments and progress rows. -/
def sampleDb : Db :=
  { blogs := [{ id := "b1", blog_name := "Blog1", author_name := none,
                url := "u1", post_count := 3, status := "pending" },
              { id := "b2", blog_name := "Blog2", author_name := none,
                url := "u2", post_count := 1, status := "pending" }],
    posts := [samplePost "b1_1" "b1" "completed",
              samplePost "b1_2" "b1" "pending",
              samplePost "b1_3" "b1" "pending",
              samplePost "b2_1" "b2" "pending"],
    reactions := [{ post_id := "b1_1", reaction_type := "like", count := 3 },
                  { post_id := "b2_1", reaction_type := "like", count := 1 }],
    comments := [{ id := "c1", post_id := "b1_1", parent_id := none,
                   author := some "a", content := some "t", like_count := 0,
                   written_at := none, is_reply := 0 },
                 { id := "c2", post_id := "b2_1", parent_id := none,
                   author := some "a", content := some "t", like_count := 0,
                   written_at := none, is_reply := 0 }],
    progress := [{ blog_id := "b1", current_post_index := 1,
                   total_posts := 3, current_step := "post_content" },
                 { blog_id := "b2", current_post_index := 0,
                   total_posts := 1, current_step := "blog_info" }] }

/-- Concrete fixture: one batch element for `add_comments_batch`. -/
def sampleCommentIn : CommentIn :=
  { id := "c1", post_id := "b1_1", parent_id := none, author := none,
    content := none, like_count := 0, written_at := none, is_reply := 0 }

end NaverBlog

namespace NaverBlog

/-- If a list member satisfies the predicate, `find?` succeeds and returns an
element no later in the list. -/
theorem find?_le_findIdx {α : Type} [BEq α] [LawfulBEq α]
    (l : List α) (p : α → Bool) (a : α) (ha : a ∈ l) (hpa : p a = true) :
    ∃ n, l.find? p = some n ∧
      l.findIdx (fun x => x == n) ≤ l.findIdx (fun x => x == a) := by
  induction l with
  | nil => cases ha
  | cons b t ih =>
    by_cases hpb : p b = true
    · refine ⟨b, List.find?_cons_of_pos _ hpb, ?_⟩
      simp [List.findIdx_cons]
    · have hab : a ≠ b := by
        intro h
        rw [h] at hpa
        exact hpb hpa
      have hat : a ∈ t := by
        rcases List.mem_cons.mp ha with h | h
        · exact absurd h hab
        · exact h
      rcases ih hat with ⟨n, hfind, hle⟩
      have hnb : n ≠ b := by
        intro h
        have := List.find?_some hfind
        rw [h] at this
        exact hpb this
      have h1 : (b == n) = false := by
        rw [beq_eq_false_iff_ne]
        exact Ne.symm hnb
      have h2 : (b == a) = false := by
        rw [beq_eq_false_iff_ne]
        exact Ne.symm hab
      refine ⟨n, ?_, ?_⟩
      · rw [List.find?_cons_of_neg _ (by simp [hpb]), hfind]
      · simp only [List.findIdx_cons, h1, h2, cond_false]
        omega

/-- C1. `get_next_incomplete_step` scans the five stages in fixed order: if
all five are completed it returns none; if some stage is in_progress it
returns the first such stage (prioritized over any pending stage, even an
earlier one); if no stage is in_progress it returns the first stage whose
status, with a missing entry counting as pending, is pending; and any stage
it returns is not completed and is no earlier in fixed order than the first
non-completed stage. -/
theorem c1_get_next_incomplete_step (bp : BlogProgress) :
    ((∀ s ∈ allSteps, stepStatusD bp.steps_completed s = "completed") →
      get_next_incomplete_step bp = none)
    ∧ (∀ s ∈ allSteps, stepsGet bp.steps_completed s = some "in_progress" →
      ∃ t, get_next_incomplete_step bp = some t ∧
        stepsGet bp.steps_completed t = some "in_progress" ∧
        stageIdx t ≤ stageIdx s)
    ∧ ((∀ s ∈ allSteps, stepsGet bp.steps_completed s ≠ some "in_progress") →
      get_next_incomplete_step bp =
        allSteps.find? (fun s => stepStatusD bp.steps_completed s == "pending"))
    ∧ (∀ s, get_next_incomplete_step bp = some s →
      s ∈ allSteps ∧ stepStatusD bp.steps_completed s ≠ "completed" ∧
      ∃ n, allSteps.find?
          (fun t => stepStatusD bp.steps_completed t != "completed") = some n ∧
        stageIdx n ≤ stageIdx s) := by
  refine ⟨?_, ?_, ?_, ?_⟩
  · intro hall
    have h1 : allSteps.find?
        (fun s => stepsGet bp.steps_completed s == some "in_progress") = none := by
      rw [List.find?_eq_none]
      intro s hs
      have := hall s hs
      simp only [stepStatusD] at this
      cases h : stepsGet bp.steps_completed s with
      | none => simp
      | some v =>
        rw [h] at this
        simp at this
        simp [this]
    have h2 : allSteps.find?
        (fun s => stepStatusD bp.steps_completed s == "pending") = none := by
      rw [List.find?_eq_none]
      intro s hs
      have := hall s hs
      simp [this]
    simp [get_next_incomplete_step, h1, h2]
  · intro s hs hin
    rcases find?_le_findIdx allSteps
        (fun t => stepsGet bp.steps_completed t == some "in_progress") s hs
        (by simp [hin]) with ⟨n, hfind, hle⟩
    refine ⟨n, ?_, ?_, hle⟩
    · simp [get_next_incomplete_step, hfind]
    · have := List.find?_some hfind
      simpa using this
  · intro hno
    have h1 : allSteps.find?
        (fun s => stepsGet bp.steps_completed s == some "in_progress") = none := by
      rw [List.find?_eq_none]
      intro s hs
      have := hno s hs
      simp [this]
    simp [get_next_incomplete_step, h1]
  · intro s hsome
    unfold get_next_incomplete_step at hsome
    cases hfind : allSteps.find?
        (fun t => stepsGet bp.steps_completed t == some "in_progress") with
    | some u =>
      rw [hfind] at hsome
      have hsu : u = s := by
        simpa using hsome
      subst hsu
      have hmem := List.mem_of_find?_eq_some hfind
      have hval : stepsGet bp.steps_completed u = some "in_progress" := by
        have := List.find?_some hfind
        simpa using this
      have hst : stepStatusD bp.steps_completed u = "in_progress" := by
        simp [stepStatusD, hval]
      refine ⟨hmem, by simp [hst], ?_⟩
      rcases find?_le_findIdx allSteps
          (fun t => stepStatusD bp.steps_completed t != "completed") u hmem
          (by simp [hst]) with ⟨n, hf, hle⟩
      exact ⟨n, hf, hle⟩
    | none =>
      rw [hfind] at hsome
      have hmem := List.mem_of_find?_eq_some hsome
      have hval : stepStatusD bp.steps_completed s = "pending" := by
        have := List.find?_some hsome
        simpa using this
      refine ⟨hmem, by simp [hval], ?_⟩
      rcases find?_le_findIdx allSteps
          (fun t => stepStatusD bp.steps_completed t != "completed") s hmem
          (by simp [hval]) with ⟨n, hf, hle⟩
      exact ⟨n, hf, hle⟩

/-- C1 witness: concrete record with blog_info completed, post_list pending,
post_content in_progress and the remaining stages missing; the in_progress
stage is returned even though an earlier pending stage exists. -/
theorem c1_get_next_incomplete_step_witness :
    ∃ t, get_next_incomplete_step
        { blog_id := "b1", blog_name := some "B", status := "in_progress",
          total_posts := 3, current_post_index := 0,
          steps_completed :=
            [("blog_info", "completed"), ("post_list", "pending"),
             ("post_content", "in_progress")] } = some t ∧
      stepsGet [("blog_info", "completed"), ("post_list", "pending"),
        ("post_content", "in_progress")] t = some "in_progress" ∧
      stageIdx t ≤ stageIdx "post_content" := by
  exact (c1_get_next_incomplete_step _).2.1 "post_content" (by decide) (by decide)

theorem statusIncomplete_iff (o : Option String) :
    statusIncomplete o = true ↔ o = some "pending" ∨ o = some "in_progress" := by
  cases o with
  | none => simp [statusIncomplete]
  | some st => simp [statusIncomplete, beq_iff_eq]

/-- C2 counterexample: a record whose stage map omits every stage and whose
overall status is completed (hence not in_progress). The claim predicts
`has_incomplete_work` is still true because a missing stage should count as
pending; the code tests `steps.get(step) in [pending, in_progress]`, where a
missing stage gives None, so it returns false. -/
theorem c2_missing_stage_counterexample :
    ("completed" : String) ≠ "in_progress" ∧
    stepsGet ([] : List (String × String)) "blog_info" = none ∧
    has_incomplete_work
      { last_updated := none,
        blogs := [{ blog_id := "b1", blog_name := none, status := "completed",
                    total_posts := 5, current_post_index := 5,
                    steps_completed := [] }] } = false := by
  exact ⟨by decide, rfl, by decide⟩

/-- C2 amended. `has_incomplete_work` returns true iff some record has
overall status in_progress, or some of the five fixed stages is present in
that record's stage-status map with status pending or in_progress; a stage
missing from the map is not counted as pending here, so a record omitting a
stage with overall status not in_progress can yield false. -/
theorem c2_has_incomplete_work (pd : ProgressState) :
    has_incomplete_work pd = true ↔
      ∃ b ∈ pd.blogs, b.status = "in_progress" ∨
        ∃ s ∈ allSteps, stepsGet b.steps_completed s = some "pending" ∨
          stepsGet b.steps_completed s = some "in_progress" := by
  simp [has_incomplete_work, List.any_eq_true, statusIncomplete_iff, beq_iff_eq]

/-- C2 witness: a record with the post_content stage present and in_progress
makes `has_incomplete_work` true. -/
theorem c2_has_incomplete_work_witness :
    has_incomplete_work
      { last_updated := none,
        blogs := [{ blog_id := "b1", blog_name := some "B", status := "completed",
                    total_posts := 3, current_post_index := 1,
                    steps_completed := [("post_content", "in_progress")] }] } = true := by
  exact (c2_has_incomplete_work _).mpr
    ⟨{ blog_id := "b1", blog_name := some "B", status := "completed",
       total_posts := 3, current_post_index := 1,
       steps_completed := [("post_content", "in_progress")] },
     by simp, Or.inr ⟨"post_content", by decide, Or.inr (by decide)⟩⟩

/-- C3. `load_progress` returns the default empty state when the file is
absent or unreadable, and when the content decodes as UTF-8 but fails JSON
parsing; but on bytes that are not valid UTF-8 (such as the single byte
0x80) the read raises UnicodeDecodeError, which the except clause of
src/utils/helpers.py 100 does not catch, so the claim that it never raises
on arbitrary invalid bytes fails on the code. -/
theorem c3_load_progress (jsonLoad : List Nat → Except PyExc JsonV) :
    load_progress jsonLoad .absent = .ok defaultProgress
    ∧ load_progress jsonLoad .unreadable = .ok defaultProgress
    ∧ (∀ bs text, utf8Decode bs = some text →
        jsonLoad text = .error .jsonDecodeError →
        load_progress jsonLoad (.bytes bs) = .ok defaultProgress)
    ∧ load_progress jsonLoad (.bytes [128]) = .error .unicodeDecodeError := by
  have h128 : utf8Decode [128] = none := by rfl
  refine ⟨rfl, rfl, ?_, ?_⟩
  · intro bs text hdec hjson
    simp [load_progress, hdec, hjson]
  · simp [load_progress, h128]

/-- C3 witness: a well-formed ASCII byte sequence whose JSON parse fails is
loaded as the default state. -/
theorem c3_load_progress_witness :
    load_progress (fun _ => .error .jsonDecodeError) (.bytes [104, 105]) =
      .ok defaultProgress := by
  exact (c3_load_progress (fun _ => .error .jsonDecodeError)).2.2.1
    [104, 105] [104, 105] (by rfl) rfl

theorem stepsGet_cons (k1 v1 : String) (rest : List (String × String))
    (k : String) :
    stepsGet ((k1, v1) :: rest) k =
      if k1 = k then some v1 else stepsGet rest k := by
  unfold stepsGet
  by_cases h : k1 = k
  · rw [List.find?_cons_of_pos _ (by simp [h])]
    simp [h]
  · rw [List.find?_cons_of_neg _ (by simp [h])]
    simp [h]

theorem stepsGet_dictSet_self (m : List (String × String)) (k v : String) :
    stepsGet (dictSet m k v) k = some v := by
  induction m with
  | nil => simp [dictSet, stepsGet_cons, stepsGet]
  | cons p rest ih =>
    obtain ⟨k1, v1⟩ := p
    by_cases h : k1 = k
    · subst h
      simp [dictSet, stepsGet_cons]
    · simp [dictSet, h, stepsGet_cons, ih]

theorem stepsGet_dictSet_ne (m : List (String × String)) (k v t : String)
    (h : t ≠ k) :
    stepsGet (dictSet m k v) t = stepsGet m t := by
  induction m with
  | nil => simp [dictSet, stepsGet_cons, stepsGet, Ne.symm h]
  | cons p rest ih =>
    obtain ⟨k1, v1⟩ := p
    by_cases hk : k1 = k
    · subst hk
      simp [dictSet, stepsGet_cons, Ne.symm h]
    · simp [dictSet, hk, stepsGet_cons, ih]

theorem updateFirst_find (l : List BlogProgress) (bid : String)
    (f : BlogProgress → BlogProgress)
    (hf : ∀ b, (f b).blog_id = b.blog_id) (r : BlogProgress)
    (hr : l.find? (fun b => b.blog_id == bid) = some r) :
    (updateFirst l bid f).find? (fun b => b.blog_id == bid) = some (f r) := by
  induction l with
  | nil => simp [List.find?] at hr
  | cons b rest ih =>
    by_cases h : b.blog_id = bid
    · have hb : r = b := by
        rw [List.find?_cons_of_pos _ (by simp [h])] at hr
        exact (Option.some_inj.mp hr).symm
      subst hb
      rw [updateFirst]
      simp only [h, beq_self_eq_true, if_true, beq_iff_eq]
      rw [List.find?_cons_of_pos _ (by simp [hf r, h])]
    · rw [List.find?_cons_of_neg _ (by simp [h])] at hr
      rw [updateFirst]
      simp only [h, if_false, beq_iff_eq]
      rw [List.find?_cons_of_neg _ (by simp [h])]
      exact ih hr

theorem applyUpdates_spec (b : BlogProgress) (bn st : Option String)
    (tp ci : Option Nat) (sp ss : Option String) :
    (applyUpdates b bn st tp ci sp ss).blog_id = b.blog_id
    ∧ (applyUpdates b bn st tp ci sp ss).blog_name =
      (match bn with
       | some n => if n = "" then b.blog_name else some n
       | none => b.blog_name)
    ∧ (applyUpdates b bn st tp ci sp ss).status =
      (match st with
       | some v => if v = "" then b.status else v
       | none => b.status)
    ∧ (applyUpdates b bn st tp ci sp ss).total_posts = tp.getD b.total_posts
    ∧ (applyUpdates b bn st tp ci sp ss).current_post_index =
      ci.getD b.current_post_index
    ∧ (applyUpdates b bn st tp ci sp ss).steps_completed =
      (match sp, ss with
       | some s, some v =>
         if s = "" ∨ v = "" then b.steps_completed
         else dictSet b.steps_completed s v
       | _, _ => b.steps_completed) := by
  rcases bn with _ | nv <;> rcases st with _ | sv <;>
    rcases tp with _ | tv <;> rcases ci with _ | cv <;>
    rcases sp with _ | pv <;> rcases ss with _ | qv <;>
    simp [applyUpdates, Option.getD, beq_iff_eq] <;>
    split_ifs <;> simp_all

/-- C4 counterexample: the claim says every field present in the updates is
merged; updating an existing record with the status field present but equal
to the empty string leaves the prior status, because the code guards the
write with Python truthiness (src/utils/helpers.py 166). -/
theorem c4_empty_string_counterexample :
    (get_blog_progress
        (update_blog_progress
          { last_updated := none,
            blogs := [{ blog_id := "b1", blog_name := some "B",
                        status := "in_progress", total_posts := 1,
                        current_post_index := 0,
                        steps_completed := [("blog_info", "pending")] }] }
          "b1" none (some "") none none none none) "b1").map
        BlogProgress.status = some "in_progress" ∧
      some "in_progress" ≠ some ("" : String) := by
  exact ⟨by decide, by decide⟩

/-- C4 amended. `update_blog_progress` creates a record with all five stages
pending when no record for the blog id exists; otherwise it merges into the
first matching record exactly the supplied fields, except that a string
field supplied as the empty string (falsy in Python) is treated as absent
and leaves the prior value, and it never clears an unspecified field: a
non-empty blogName or status is written, total_posts and current_post_index
are written whenever supplied, when both step and step_status are supplied
non-empty it sets exactly that one stage to step_status leaving every other
stage unchanged (while an empty or missing step or step_status leaves the
whole stage map unchanged), and every field not supplied keeps its prior
value. -/
theorem c4_update_blog_progress (pd : ProgressState) (bid : String)
    (bn st : Option String) (tp ci : Option Nat) (sp ss : Option String) :
    (get_blog_progress pd bid = none →
      ∃ r, (update_blog_progress pd bid bn st tp ci sp ss).blogs =
          pd.blogs ++ [r] ∧ r.blog_id = bid ∧
        ∀ s ∈ allSteps, stepsGet r.steps_completed s = some "pending")
    ∧ (∀ r, get_blog_progress pd bid = some r →
      ∃ r2, get_blog_progress
          (update_blog_progress pd bid bn st tp ci sp ss) bid = some r2
        ∧ r2.blog_id = r.blog_id
        ∧ (bn = none → r2.blog_name = r.blog_name)
        ∧ (∀ v, bn = some v → v ≠ "" → r2.blog_name = some v)
        ∧ (bn = some "" → r2.blog_name = r.blog_name)
        ∧ (st = none → r2.status = r.status)
        ∧ (∀ v, st = some v → v ≠ "" → r2.status = v)
        ∧ (st = some "" → r2.status = r.status)
        ∧ (tp = none → r2.total_posts = r.total_posts)
        ∧ (∀ v, tp = some v → r2.total_posts = v)
        ∧ (ci = none → r2.current_post_index = r.current_post_index)
        ∧ (∀ v, ci = some v → r2.current_post_index = v)
        ∧ (sp = none ∨ ss = none ∨ sp = some "" ∨ ss = some "" →
            r2.steps_completed = r.steps_completed)
        ∧ (∀ s v, sp = some s → ss = some v → s ≠ "" → v ≠ "" →
            stepsGet r2.steps_completed s = some v ∧
            ∀ t, t ≠ s →
              stepsGet r2.steps_completed t = stepsGet r.steps_completed t)) := by
  constructor
  · intro hnone
    refine ⟨{ blog_id := bid, blog_name := bn, status := pyOrD st "pending",
              total_posts := tp.getD 0, current_post_index := ci.getD 0,
              steps_completed := allSteps.map (fun s => (s, "pending")) },
      ?_, rfl, ?_⟩
    · simp [update_blog_progress, hnone]
    · intro s hs
      fin_cases hs <;> rfl
  · intro r hr
    have happ := applyUpdates_spec r bn st tp ci sp ss
    refine ⟨applyUpdates r bn st tp ci sp ss, ?_, happ.1, ?_, ?_, ?_, ?_, ?_,
      ?_, ?_, ?_, ?_, ?_, ?_, ?_⟩
    · unfold update_blog_progress
      rw [hr]
      exact updateFirst_find pd.blogs bid _
        (fun b => (applyUpdates_spec b bn st tp ci sp ss).1) r hr
    · intro h
      subst h
      exact happ.2.1
    · intro v h hv
      subst h
      have hm : (applyUpdates r (some v) st tp ci sp ss).blog_name =
          if v = "" then r.blog_name else some v := happ.2.1
      rw [hm]
      simp [hv]
    · intro h
      subst h
      have hm : (applyUpdates r (some "") st tp ci sp ss).blog_name =
          if ("" : String) = "" then r.blog_name else some "" := happ.2.1
      rw [hm]
      simp
    · intro h
      subst h
      exact happ.2.2.1
    · intro v h hv
      subst h
      rw [happ.2.2.1]
      simp [hv]
    · intro h
      subst h
      have hm : (applyUpdates r bn (some "") tp ci sp ss).status =
          if ("" : String) = "" then r.status else "" := happ.2.2.1
      rw [hm]
      simp
    · intro h
      subst h
      exact happ.2.2.2.1
    · intro v h
      subst h
      exact happ.2.2.2.1
    · intro h
      subst h
      exact happ.2.2.2.2.1
    · intro v h
      subst h
      exact happ.2.2.2.2.1
    · intro h
      have hsteps := happ.2.2.2.2.2
      rcases h with h | h | h | h
      · subst h
        rcases ss with _ | qv <;> simpa using hsteps
      · subst h
        rcases sp with _ | pv <;> simpa using hsteps
      · subst h
        rcases ss with _ | qv <;> simpa using hsteps
      · subst h
        rcases sp with _ | pv <;> simpa using hsteps
    · intro s v hs hv hsne hvne
      subst hs
      subst hv
      have hmatch : (applyUpdates r bn st tp ci (some s) (some v)).steps_completed =
          if s = "" ∨ v = "" then r.steps_completed
          else dictSet r.steps_completed s v := happ.2.2.2.2.2
      have hsteps : (applyUpdates r bn st tp ci (some s) (some v)).steps_completed =
          dictSet r.steps_completed s v := by
        rw [hmatch, if_neg]
        simp [hsne, hvne]
      constructor
      · rw [hsteps]
        exact stepsGet_dictSet_self _ _ _
      · intro t ht
        rw [hsteps]
        exact stepsGet_dictSet_ne _ _ _ _ ht

/-- C4 witness: the concrete upsert scenario from the specification, on the
empty state, creates the record with all five stages pending. -/
theorem c4_update_blog_progress_witness :
    ∃ r, (update_blog_progress { last_updated := none, blogs := [] } "b1"
        (some "X") (some "in_progress") (some 50) none none none).blogs =
        [] ++ [r] ∧ r.blog_id = "b1" ∧
      ∀ s ∈ allSteps, stepsGet r.steps_completed s = some "pending" := by
  exact (c4_update_blog_progress { last_updated := none, blogs := [] } "b1"
    (some "X") (some "in_progress") (some 50) none none none).1 rfl

/-- C5 counterexample: on a record with stages [completed, completed,
in_progress, pending, pending], a run with the resume argument false (the
start path of src/main.py 385-395, which also selects blogs whose status is
in_progress) executes all five stages: the completed stages are not
skipped, and blog_info, not post_content, runs first. -/
theorem c5_nonresume_counterexample :
    stepsExecuted false sampleBp = allSteps ∧
    (stepsExecuted false sampleBp).head? = some "blog_info" := by
  exact ⟨rfl, rfl⟩

/-- C5 amended. When the orchestrator runs a blog with the resume flag set
(the resume path of src/main.py 378-384 and the skip test at 474-476) and
the record's stages are [completed, completed, in_progress, pending,
pending], it skips exactly the two completed stages and executes
post_content first. -/
theorem c5_resume_skips_completed :
    stepsExecuted true sampleBp = ["post_content", "reactions", "comments"] ∧
    (stepsExecuted true sampleBp).head? = some "post_content" := by
  exact ⟨rfl, rfl⟩

theorem processLoop_map_fst (l : List Post) (i : Nat) :
    (processLoop l i).map Prod.fst = l.map Post.id := by
  induction l generalizing i with
  | nil => rfl
  | cons p rest ih => simp [processLoop, ih]

theorem processLoop_get_snd (l : List Post) :
    ∀ (i k : Nat) (h : k < (processLoop l i).length),
      ((processLoop l i).get ⟨k, h⟩).2 = i + k + 1 := by
  induction l with
  | nil =>
    intro i k h
    simp [processLoop] at h
  | cons p rest ih =>
    intro i k h
    match k with
    | 0 => rfl
    | Nat.succ k2 =>
      have h2 : k2 < (processLoop rest (i + 1)).length := by
        simpa [processLoop] using h
      have hrec := ih (i + 1) k2 h2
      have hget : ((processLoop (p :: rest) i).get ⟨k2 + 1, h⟩).2 =
          ((processLoop rest (i + 1)).get ⟨k2, h2⟩).2 := rfl
      rw [hget, hrec]
      omega

/-- C6. `_process_post_content` iterates exactly the suffix of the pending
posts of the blog starting at the persisted current_post_index, in order:
posts before that cursor are not scanned, and the current_post_index value
persisted immediately after the post processed at offset k is
current_post_index + k + 1 — the cursor advances by exactly one per
post. -/
theorem c6_process_post_content (db : Db) (bid : String) (bp : BlogProgress)
    (hnd : (db.posts.map Post.id).Nodup) :
    ((process_post_content db bid bp).map Prod.fst =
      ((get_posts_by_status db bid (some "pending")).drop
        bp.current_post_index).map Post.id)
    ∧ (∀ (k : Nat) (h : k < (process_post_content db bid bp).length),
        ((process_post_content db bid bp).get ⟨k, h⟩).2 =
          bp.current_post_index + k + 1)
    ∧ (∀ p ∈ (get_posts_by_status db bid (some "pending")).take
          bp.current_post_index,
        p.id ∉ (process_post_content db bid bp).map Prod.fst) := by
  refine ⟨processLoop_map_fst _ _, ?_, ?_⟩
  · intro k h
    exact processLoop_get_snd _ _ k h
  · intro p hp hmem
    have hout : (process_post_content db bid bp).map Prod.fst =
        ((get_posts_by_status db bid (some "pending")).drop
          bp.current_post_index).map Post.id := processLoop_map_fst _ _
    rw [hout] at hmem
    have hsub : (get_posts_by_status db bid (some "pending")).Sublist
        db.posts := List.filter_sublist _
    have hpend : ((get_posts_by_status db bid (some "pending")).map
        Post.id).Nodup :=
      List.Nodup.sublist (hsub.map Post.id) hnd
    have hsplit : (get_posts_by_status db bid (some "pending")).map Post.id =
        ((get_posts_by_status db bid (some "pending")).take
          bp.current_post_index).map Post.id ++
        ((get_posts_by_status db bid (some "pending")).drop
          bp.current_post_index).map Post.id := by
      rw [← List.map_append, List.take_append_drop]
    rw [hsplit] at hpend
    have hdisj := (List.nodup_append.mp hpend).2.2
    exact hdisj (List.mem_map_of_mem Post.id hp) hmem

/-- C6 witness: in the sample database, blog b1 has pending posts
[b1_2, b1_3]; with persisted cursor 1 the stage processes exactly b1_3. -/
theorem c6_process_post_content_witness :
    (process_post_content sampleDb "b1" sampleBp).map Prod.fst =
      ["b1_3"] := by
  have h := (c6_process_post_content sampleDb "b1" sampleBp (by decide)).1
  rw [h]
  rfl

theorem filter_nil_of_all {α : Type} (l : List α) (q : α → Bool)
    (h : ∀ x ∈ l, q x = false) : l.filter q = [] := by
  induction l with
  | nil => rfl
  | cons a t ih =>
    have ha := h a (List.mem_cons_self a t)
    rw [List.filter_cons]
    simp only [ha, if_false, Bool.false_eq_true]
    exact ih (fun x hx => h x (List.mem_cons_of_mem a hx))

theorem filter_pos_of_filter_neg {α : Type} (l : List α) (p : α → Bool) :
    (l.filter (fun a => !(p a))).filter p = [] := by
  apply filter_nil_of_all
  intro x hx
  have hx2 := (List.mem_filter.mp hx).2
  simpa using hx2

theorem filter_of_filter_not {α : Type} (l : List α) (p q : α → Bool)
    (h : ∀ x ∈ l, q x = true → p x = false) :
    (l.filter (fun a => !(p a))).filter q = l.filter q := by
  induction l with
  | nil => rfl
  | cons a t ih =>
    have ht : ∀ x ∈ t, q x = true → p x = false :=
      fun x hx => h x (List.mem_cons_of_mem a hx)
    cases hq : q a with
    | true =>
      have hp : p a = false := h a (List.mem_cons_self a t) hq
      simp [List.filter_cons, hp, hq, ih ht]
    | false =>
      cases hp : p a with
      | true => simp [List.filter_cons, hp, hq, ih ht]
      | false => simp [List.filter_cons, hp, hq, ih ht]

theorem filter_nil_of_excluded {α : Type} (l : List α) (p q : α → Bool)
    (h : ∀ x ∈ l, q x = true → p x = true) :
    (l.filter (fun a => !(p a))).filter q = [] := by
  apply filter_nil_of_all
  intro x hx
  have hm := List.mem_filter.mp hx
  cases hq : q x with
  | false => rfl
  | true =>
    exfalso
    have hp := h x hm.1 hq
    have h2 : (!(p x)) = true := hm.2
    rw [hp] at h2
    simp at h2

theorem contains_eq_true_of_mem {α : Type} [BEq α] [LawfulBEq α]
    (l : List α) (a : α) (h : a ∈ l) : l.contains a = true := by
  simp only [List.contains, List.elem_eq_mem, decide_eq_true_eq]
  exact h

theorem not_mem_of_contains_eq_false {α : Type} [BEq α] [LawfulBEq α]
    (l : List α) (a : α) (h : a ∈ l) (hc : l.contains a = false) : False := by
  rw [contains_eq_true_of_mem l a h] at hc
  cases hc

theorem find?_filter_not {α : Type} (l : List α) (p q : α → Bool)
    (h : ∀ x ∈ l, q x = true → p x = false) :
    (l.filter (fun a => !(p a))).find? q = l.find? q := by
  induction l with
  | nil => rfl
  | cons a t ih =>
    have ht : ∀ x ∈ t, q x = true → p x = false :=
      fun x hx => h x (List.mem_cons_of_mem a hx)
    cases hq : q a with
    | true =>
      have hp : p a = false := h a (List.mem_cons_self a t) hq
      rw [List.filter_cons]
      simp only [hp, Bool.not_false, if_true]
      rw [List.find?_cons_of_pos _ hq, List.find?_cons_of_pos _ hq]
    | false =>
      rw [List.filter_cons]
      cases hp : p a with
      | true =>
        simp only [hp, Bool.not_true, Bool.false_eq_true, if_false]
        rw [List.find?_cons_of_neg _ (by simp [hq])]
        exact ih ht
      | false =>
        simp only [hp, Bool.not_false, if_true]
        rw [List.find?_cons_of_neg _ (by simp [hq]),
          List.find?_cons_of_neg _ (by simp [hq])]
        exact ih ht

/-- C7. `delete_blog` always returns true, and afterwards the blog has no
posts, every former post of the blog has no reactions and no comments, the
blog's progress row and blog row are gone, and the rows of every other blog
(its blog row, posts, progress, and the reactions and comments of its
posts) are unchanged. The hypothesis is the schema invariant that post ids
are primary keys, hence distinct. -/
theorem c7_delete_blog (db : Db) (b : String)
    (hnd : (db.posts.map Post.id).Nodup) :
    (delete_blog db b).2 = true
    ∧ get_blog_posts (delete_blog db b).1 b = []
    ∧ (∀ p ∈ db.posts, p.blog_id = b →
        get_reactions (delete_blog db b).1 p.id = [] ∧
        get_comments (delete_blog db b).1 p.id = [])
    ∧ get_progress (delete_blog db b).1 b = none
    ∧ get_blog (delete_blog db b).1 b = none
    ∧ (∀ b2, b2 ≠ b →
        get_blog (delete_blog db b).1 b2 = get_blog db b2
        ∧ get_blog_posts (delete_blog db b).1 b2 = get_blog_posts db b2
        ∧ get_progress (delete_blog db b).1 b2 = get_progress db b2
        ∧ (∀ p ∈ db.posts, p.blog_id = b2 →
            get_reactions (delete_blog db b).1 p.id = get_reactions db p.id
            ∧ get_comments (delete_blog db b).1 p.id =
              get_comments db p.id)) := by
  refine ⟨rfl, ?_, ?_, ?_, ?_, ?_⟩
  · exact filter_pos_of_filter_neg db.posts (fun p => p.blog_id == b)
  · intro p hp hpb
    have hpin : p.id ∈ (db.posts.filter (fun x => x.blog_id == b)).map
        Post.id :=
      List.mem_map_of_mem Post.id (List.mem_filter.mpr ⟨hp, by simp [hpb]⟩)
    constructor
    · apply filter_nil_of_excluded
      intro r hr hq
      have hrp : r.post_id = p.id := by simpa using hq
      rw [hrp]
      exact contains_eq_true_of_mem _ _ hpin
    · apply filter_nil_of_excluded
      intro c hc hq
      have hcp : c.post_id = p.id := by simpa using hq
      rw [hcp]
      exact contains_eq_true_of_mem _ _ hpin
  · show (db.progress.filter (fun pr => !(pr.blog_id == b))).find?
      (fun pr => pr.blog_id == b) = none
    rw [List.find?_eq_none]
    intro pr hpr
    have hpr2 : (!(pr.blog_id == b)) = true := (List.mem_filter.mp hpr).2
    simpa using hpr2
  · show (db.blogs.filter (fun bl => !(bl.id == b))).find?
      (fun bl => bl.id == b) = none
    rw [List.find?_eq_none]
    intro bl hbl
    have hbl2 : (!(bl.id == b)) = true := (List.mem_filter.mp hbl).2
    simpa using hbl2
  · intro b2 hb2
    refine ⟨?_, ?_, ?_, ?_⟩
    · apply find?_filter_not
      intro x hx hq
      have hxe : x.id = b2 := by simpa using hq
      simp [hxe, hb2]
    · apply filter_of_filter_not
      intro x hx hq
      have hxe : x.blog_id = b2 := by simpa using hq
      simp [hxe, hb2]
    · apply find?_filter_not
      intro x hx hq
      have hxe : x.blog_id = b2 := by simpa using hq
      simp [hxe, hb2]
    · intro p hp hpb2
      have hnotin : p.id ∉ (db.posts.filter (fun x => x.blog_id == b)).map
          Post.id := by
        intro hmem
        rcases List.mem_map.mp hmem with ⟨q, hq, hqe⟩
        have hqb : (q.blog_id == b) = true := (List.mem_filter.mp hq).2
        have hqb2 : q.blog_id = b := by simpa using hqb
        have hqp : q = p :=
          List.inj_on_of_nodup_map hnd (List.mem_of_mem_filter hq) hp hqe
        rw [hqp] at hqb2
        rw [hpb2] at hqb2
        exact hb2 hqb2
      have hcf : ((db.posts.filter (fun x => x.blog_id == b)).map
          Post.id).contains p.id = false := by
        cases hco : ((db.posts.filter (fun x => x.blog_id == b)).map
            Post.id).contains p.id with
        | false => rfl
        | true =>
          exfalso
          apply hnotin
          simpa only [List.contains, List.elem_eq_mem,
            decide_eq_true_eq] using hco
      constructor
      · apply filter_of_filter_not
        intro r hr hq
        have hre : r.post_id = p.id := by simpa using hq
        rw [hre]
        exact hcf
      · apply filter_of_filter_not
        intro c hc hq
        have hce : c.post_id = p.id := by simpa using hq
        rw [hce]
        exact hcf

/-- C7 witness: deleting blog b1 from the sample database empties its
posts, the reactions and comments of its former post b1_1, and its
progress, while blog b2 keeps its posts and the reactions of b2_1. -/
theorem c7_delete_blog_witness :
    (delete_blog sampleDb "b1").2 = true ∧
    get_blog_posts (delete_blog sampleDb "b1").1 "b1" = [] ∧
    get_progress (delete_blog sampleDb "b1").1 "b1" = none ∧
    get_blog (delete_blog sampleDb "b1").1 "b1" = none ∧
    get_blog_posts (delete_blog sampleDb "b1").1 "b2" =
      get_blog_posts sampleDb "b2" := by
  have h := c7_delete_blog sampleDb "b1" (by decide)
  exact ⟨h.1, h.2.1, h.2.2.2.1, h.2.2.2.2.1,
    (h.2.2.2.2.2 "b2" (by decide)).2.1⟩

/-- C8. `add_reaction` has upsert semantics: it returns true, after one call
the rows for the (post, type) pair are exactly one row carrying the given
count, and after a second call with the same pair the rows for the pair are
exactly one row carrying the second count — the later count replaces the
earlier one and no row is appended for an existing pair. -/
theorem c8_add_reaction (db : Db) (pid t : String) (c1 c2 : Int) :
    (add_reaction db pid t c1).2 = true
    ∧ ((add_reaction db pid t c1).1.reactions.filter
        (fun r => r.post_id == pid && r.reaction_type == t)) =
      [{ post_id := pid, reaction_type := t, count := c1 }]
    ∧ ((add_reaction (add_reaction db pid t c1).1 pid t c2).1.reactions.filter
        (fun r => r.post_id == pid && r.reaction_type == t)) =
      [{ post_id := pid, reaction_type := t, count := c2 }] := by
  have key : ∀ (d : Db) (c : Int),
      ((add_reaction d pid t c).1.reactions.filter
        (fun r => r.post_id == pid && r.reaction_type == t)) =
      [{ post_id := pid, reaction_type := t, count := c }] := by
    intro d c
    show (((d.reactions.filter
        (fun r => !(r.post_id == pid && r.reaction_type == t))) ++
        ([({ post_id := pid, reaction_type := t, count := c } : Reaction)] :
          List Reaction)).filter
        (fun r => r.post_id == pid && r.reaction_type == t)) =
      [{ post_id := pid, reaction_type := t, count := c }]
    rw [List.filter_append, filter_pos_of_filter_neg]
    simp
  exact ⟨rfl, key db c1, key (add_reaction db pid t c1).1 c2⟩

theorem add_comment_dup (db : Db) (cid pid a co : String) (lc : Int)
    (w pr : Option String) (ir : Int)
    (h : (db.comments.any (fun c => c.id == cid)) = true) :
    add_comment db cid pid a co lc w pr ir = (db, true) := by
  unfold add_comment
  rw [h]
  simp

theorem add_comment_fresh (db : Db) (cid pid a co : String) (lc : Int)
    (w pr : Option String) (ir : Int)
    (h : (db.comments.any (fun c => c.id == cid)) = false) :
    add_comment db cid pid a co lc w pr ir =
      ({ db with comments := db.comments ++ [commentRow cid pid a co lc w pr ir] },
       true) := by
  unfold add_comment
  rw [h]
  simp

theorem add_post_dup (db : Db) (pid bid : String) (t u : Option String)
    (h : (db.posts.any (fun q => q.id == pid)) = true) :
    add_post db pid bid t u = (db, false) := by
  unfold add_post
  rw [h]
  simp

/-- C9. `add_comment` has insert-or-ignore semantics: starting from a store
with no comment of the given id, inserting content A and then content B
under that id leaves the store of the first insert unchanged (the second
call returns it as is, with result true), and the rows with that id are
exactly the one row carrying content A. -/
theorem c9_add_comment (db : Db) (cid pid a1 co1 a2 co2 : String)
    (l1 l2 : Int) (w1 w2 pr1 pr2 : Option String) (r1 r2 : Int)
    (hfresh : ∀ c ∈ db.comments, c.id ≠ cid) :
    (add_comment (add_comment db cid pid a1 co1 l1 w1 pr1 r1).1
        cid pid a2 co2 l2 w2 pr2 r2).1 =
      (add_comment db cid pid a1 co1 l1 w1 pr1 r1).1
    ∧ (add_comment (add_comment db cid pid a1 co1 l1 w1 pr1 r1).1
        cid pid a2 co2 l2 w2 pr2 r2).2 = true
    ∧ (add_comment (add_comment db cid pid a1 co1 l1 w1 pr1 r1).1
        cid pid a2 co2 l2 w2 pr2 r2).1.comments.filter
        (fun c => c.id == cid) =
      [commentRow cid pid a1 co1 l1 w1 pr1 r1] := by
  have hany1 : (db.comments.any (fun c => c.id == cid)) = false := by
    rw [List.any_eq_false]
    intro c hc
    simp [hfresh c hc]
  have hc1 : (add_comment db cid pid a1 co1 l1 w1 pr1 r1).1.comments =
      db.comments ++ [commentRow cid pid a1 co1 l1 w1 pr1 r1] := by
    rw [add_comment_fresh db cid pid a1 co1 l1 w1 pr1 r1 hany1]
  have hany2 : ((add_comment db cid pid a1 co1 l1 w1 pr1 r1).1.comments.any
      (fun c => c.id == cid)) = true := by
    rw [hc1, List.any_eq_true]
    refine ⟨commentRow cid pid a1 co1 l1 w1 pr1 r1, ?_, by simp [commentRow]⟩
    exact List.mem_append_right _ (List.mem_singleton.mpr rfl)
  have hsecond : (add_comment (add_comment db cid pid a1 co1 l1 w1 pr1 r1).1
      cid pid a2 co2 l2 w2 pr2 r2) =
      ((add_comment db cid pid a1 co1 l1 w1 pr1 r1).1, true) :=
    add_comment_dup _ cid pid a2 co2 l2 w2 pr2 r2 hany2
  refine ⟨by rw [hsecond], by rw [hsecond], ?_⟩
  rw [hsecond, hc1, List.filter_append]
  rw [filter_nil_of_all db.comments _ (fun c hc => by simp [hfresh c hc])]
  simp [commentRow]

/-- C9 witness: inserting comment c9 with content A, then again with
content B, leaves exactly the content-A row in the sample database. -/
theorem c9_add_comment_witness :
    (add_comment (add_comment sampleDb "c9" "b1_1" "au" "A" 0 none none 0).1
        "c9" "b1_1" "au" "B" 0 none none 0).1.comments.filter
        (fun c => c.id == "c9") =
      [commentRow "c9" "b1_1" "au" "A" 0 none none 0] := by
  exact (c9_add_comment sampleDb "c9" "b1_1" "au" "A" "au" "B" 0 0 none none
    none none 0 0 (by decide)).2.2

theorem add_comments_batch_aux_count (cs : List CommentIn) :
    ∀ (db : Db) (n : Nat),
      (add_comments_batch_aux db n cs).2 = n + cs.length := by
  induction cs with
  | nil =>
    intro db n
    simp [add_comments_batch_aux]
  | cons c rest ih =>
    intro db n
    by_cases h : (db.comments.any (fun q => q.id == c.id)) = true
    · have hstep : add_comments_batch_aux db n (c :: rest) =
          add_comments_batch_aux db (n + 1) rest := by
        simp [add_comments_batch_aux, h]
      rw [hstep, ih]
      simp [List.length_cons]
      omega
    · have h2 : (db.comments.any (fun q => q.id == c.id)) = false := by
        simpa using h
      have hstep : add_comments_batch_aux db n (c :: rest) =
          add_comments_batch_aux
            { db with comments := db.comments ++ [commentRowOf c] }
            (n + 1) rest := by
        simp [add_comments_batch_aux, h2]
      rw [hstep, ih]
      simp [List.length_cons]
      omega

theorem add_posts_batch_aux_len (ps : List PostIn) :
    ∀ (db : Db) (n : Nat),
      (add_posts_batch_aux db n ps).2 + db.posts.length =
        (add_posts_batch_aux db n ps).1.posts.length + n := by
  induction ps with
  | nil =>
    intro db n
    simp [add_posts_batch_aux]
    omega
  | cons p rest ih =>
    intro db n
    by_cases h : (db.posts.any (fun q => q.id == p.id)) = true
    · have hstep : add_posts_batch_aux db n (p :: rest) =
          add_posts_batch_aux db n rest := by
        simp [add_posts_batch_aux, h]
      rw [hstep]
      exact ih db n
    · have h2 : (db.posts.any (fun q => q.id == p.id)) = false := by
        simpa using h
      have hstep : add_posts_batch_aux db n (p :: rest) =
          add_posts_batch_aux
            { db with posts := db.posts ++ [postRow p] } (n + 1) rest := by
        simp [add_posts_batch_aux, h2]
      rw [hstep]
      have hrec := ih { db with posts := db.posts ++ [postRow p] } (n + 1)
      have hlen : ({ db with posts := db.posts ++ [postRow p] } : Db).posts.length =
          db.posts.length + 1 := by simp
      omega

/-- C10. On a comment whose id already exists, `add_comment` still returns
true and leaves the store unchanged, and `add_comments_batch` returns the
number of comments it was given; in contrast `add_post` on an existing id
returns false and leaves the store unchanged, and the count returned by
`add_posts_batch` equals the number of rows actually inserted (final table
size minus initial table size). So the comment-insert return values do not
distinguish a new insert from an ignored duplicate, while the post-insert
return values do. -/
theorem c10_insert_return_values (db : Db)
    (cid pid a co : String) (lc : Int) (w pr : Option String) (ir : Int)
    (hdupc : ∃ c ∈ db.comments, c.id = cid)
    (pid2 bid2 : String) (t u : Option String)
    (hdupp : ∃ p ∈ db.posts, p.id = pid2)
    (cs : List CommentIn) (ps : List PostIn) :
    (add_comment db cid pid a co lc w pr ir).2 = true
    ∧ (add_comment db cid pid a co lc w pr ir).1 = db
    ∧ (add_comments_batch db cs).2 = cs.length
    ∧ (add_post db pid2 bid2 t u).2 = false
    ∧ (add_post db pid2 bid2 t u).1 = db
    ∧ (add_posts_batch db ps).2 + db.posts.length =
      (add_posts_batch db ps).1.posts.length := by
  have hanyc : (db.comments.any (fun c => c.id == cid)) = true := by
    rw [List.any_eq_true]
    rcases hdupc with ⟨c, hc, he⟩
    exact ⟨c, hc, by simp [he]⟩
  have hanyp : (db.posts.any (fun q => q.id == pid2)) = true := by
    rw [List.any_eq_true]
    rcases hdupp with ⟨p, hp, he⟩
    exact ⟨p, hp, by simp [he]⟩
  refine ⟨?_, ?_, ?_, ?_, ?_, ?_⟩
  · rw [add_comment_dup db cid pid a co lc w pr ir hanyc]
  · rw [add_comment_dup db cid pid a co lc w pr ir hanyc]
  · have h := add_comments_batch_aux_count cs db 0
    simpa [add_comments_batch] using h
  · rw [add_post_dup db pid2 bid2 t u hanyp]
  · rw [add_post_dup db pid2 bid2 t u hanyp]
  · have h := add_posts_batch_aux_len ps db 0
    simpa [add_posts_batch] using h

/-- C10 witness: in the sample database, re-adding existing comment c1
returns true and changes nothing; a two-element comment batch whose ids
already exist still reports 2; re-adding existing post b1_1 returns
false. -/
theorem c10_insert_return_values_witness :
    (add_comment sampleDb "c1" "b1_1" "x" "B" 0 none none 0).2 = true
    ∧ (add_comment sampleDb "c1" "b1_1" "x" "B" 0 none none 0).1 = sampleDb
    ∧ (add_comments_batch sampleDb [sampleCommentIn, sampleCommentIn]).2 = 2
    ∧ (add_post sampleDb "b1_1" "b1" none none).2 = false := by
  have h := c10_insert_return_values sampleDb "c1" "b1_1" "x" "B" 0 none
    none 0 (by decide) "b1_1" "b1" none none (by decide)
    [sampleCommentIn, sampleCommentIn] []
  exact ⟨h.1, h.2.1, h.2.2.1, h.2.2.2.1⟩

end NaverBlog
